import Mathlib

/-!
Shallow embedding of the local source reconciliation and import rewriting
engine of `plasmic-cli` (`src/plasmic-cli/src/index.ts`).

Modelling conventions:
* A file path is a list of path segments (`Path`), so `path.join a b` is
  list append, `path.basename p` is the last segment, and `path.relative`
  is `pathRelative` below.
* The filesystem is an association list from paths to file contents
  (`FS`); `fs.existsSync` is `existsSync`, reading a file is `getFile`.
* The base-name index built by `buildBaseNameToFiles` (a `glob` over the
  source tree grouped by base name) is taken as an input association list
  `FileIndex` from bare file names to the list of matching paths, exactly
  the `Record<string, string[]>` the TypeScript functions receive.
* `process.exit(1)` inside `findSrcDirPath` is modelled by returning the
  `ambiguous` constructor, which every caller propagates as an aborted
  pass (`PassResult.aborted`) carrying the state at the moment of abort.
* Console warnings and writes are recorded as an event trace so that
  ordering claims can be stated.
-/

namespace Plasmic

/-- A file path, as a list of path segments relative to some root. -/
abbrev Path := List String

/-- The filesystem: an association list from paths to file contents. -/
abbrev FS := List (Path × String)

/-- Reading a file: `none` when no file exists at `p`. -/
def getFile (fileSys : FS) (p : Path) : Option String :=
  List.lookup p fileSys

/-- Embeds `fs.existsSync`. -/
def existsSync (fileSys : FS) (p : Path) : Bool :=
  (getFile fileSys p).isSome

/-- Stores content at a path, replacing any previous content. -/
def setFile : FS → Path → String → FS
  | [], p, c => [(p, c)]
  | e :: es, p, c => if e.1 = p then (p, c) :: es else e :: setFile es p c

/-- Embeds `path.basename`: the last path segment. -/
def baseName (p : Path) : String :=
  p.getLast?.getD ""

/-- Embeds `path.relative from to` on segment lists: drop the common
prefix, go up with `..` for each remaining segment of `from`, then down
into the remainder of `to`. -/
def pathRelative : Path → Path → Path
  | [], t => t
  | _ :: fs, [] => List.replicate (fs.length + 1) ".."
  | f :: fs, t :: ts =>
    if f = t then pathRelative fs ts
    else List.replicate (fs.length + 1) ".." ++ (t :: ts)

/-- The base-name index `baseNameToFiles : Record<string, string[]>`:
bare file name to all files with that name under the source directory. -/
abbrev FileIndex := List (String × List Path)

/-- Looks a bare file name up in the index; `none` embeds
`!(fileName in baseNameToFiles)`. -/
def lookupIndex (idx : FileIndex) (name : String) : Option (List Path) :=
  List.lookup name idx

/-- Modelled from the spec: `writeFileContent` is imported from
`./file-utils`, which is not among the provided sources. Per the spec
(Artifact Writer): if `force` is false and a file already exists at the
path the write is skipped; otherwise the content is unconditionally
written (parent directory creation is implicit in the map model). -/
def writeFileContent (fileSys : FS) (p : Path) (content : String) (force : Bool) : FS :=
  if force = false ∧ existsSync fileSys p = true then fileSys
  else setFile fileSys p content

/-- Result of `findSrcDirPath`: either a returned path, or the
error-and-`process.exit(1)` branch taken when the expected file is
missing and its bare name maps to a non-singleton candidate list; the
error message lists `expectedPath`, `fileName` and every candidate. -/
inductive FindResult where
  | found (p : Path)
  | ambiguous (expectedPath : Path) (fileName : String) (candidates : List Path)
deriving DecidableEq

/-- Embeds `findSrcDirPath(srcDir, expectedPath, baseNameToFiles)`:
return `expectedPath` if it exists under `srcDir` or its bare name is
not indexed; return the unique candidate relative to `srcDir` if the
bare name indexes exactly one file; otherwise error and quit
(`ambiguous`). -/
def findSrcDirPath (fileSys : FS) (srcDir : Path) (expectedPath : Path)
    (idx : FileIndex) : FindResult :=
  let fileName := baseName expectedPath
  if existsSync fileSys (srcDir ++ expectedPath) then .found expectedPath
  else
    match lookupIndex idx fileName with
    | none => .found expectedPath
    | some [f] => .found (pathRelative srcDir f)
    | some files => .ambiguous expectedPath fileName files

/-- Errors that abort a pass: the ambiguity `process.exit(1)` inside
`findSrcDirPath`, and a `readFileSync` throw on a missing file inside
`fixFileImportStatements`. -/
inductive SyncError where
  | ambiguousPath (expectedPath : Path) (fileName : String) (candidates : List Path)
  | missingFile (p : Path)
deriving DecidableEq

/-- One reconciliation step of `fixComponentPaths` / `fixProjectFilePaths`:
`const newP = findSrcDirPath(...); if (newP !== p) { warn; p = newP; }`.
Returns the new path together with the emitted move warnings. -/
def fixOnePath (fileSys : FS) (srcDir : Path) (idx : FileIndex) (declared : Path) :
    Except SyncError (Path × List (Path × Path)) :=
  match findSrcDirPath fileSys srcDir declared idx with
  | .found newPath =>
    if newPath = declared then .ok (declared, [])
    else .ok (newPath, [(declared, newPath)])
  | .ambiguous e n cs => .error (.ambiguousPath e n cs)

/-- The `importSpec` field of a component config. -/
structure ImportSpec where
  modulePath : Path
deriving DecidableEq

/-- A tracked component entry of `plasmic.json` (`ComponentConfig`). -/
structure ComponentConfig where
  id : String
  name : String
  type : String
  projectId : String
  renderModuleFilePath : Path
  importSpec : ImportSpec
  cssFilePath : Path
deriving DecidableEq

/-- A tracked project entry of `plasmic.json` (`ProjectConfig`). -/
structure ProjectConfig where
  projectId : String
  contextFilePath : Path
  fontsFilePath : Path
  contextTypeName : String
deriving DecidableEq

/-- Embeds `fixComponentPaths(srcDir, compConfig, baseNameToFiles)`:
reconcile the render module path, the css path, and — when
`isLocalModulePath(importSpec.modulePath)` — the import module path.
`isLocal` embeds `isLocalModulePath` from `./code-utils`, which is not
among the provided sources, so it is kept as a parameter. Returns the
updated config and the emitted move warnings, or the ambiguity error. -/
def fixComponentPaths (isLocal : Path → Bool) (fileSys : FS) (srcDir : Path)
    (idx : FileIndex) (cc : ComponentConfig) :
    Except SyncError (ComponentConfig × List (Path × Path)) :=
  match fixOnePath fileSys srcDir idx cc.renderModuleFilePath with
  | .error e => .error e
  | .ok (newRender, w₁) =>
    match fixOnePath fileSys srcDir idx cc.cssFilePath with
    | .error e => .error e
    | .ok (newCss, w₂) =>
      if isLocal cc.importSpec.modulePath then
        match fixOnePath fileSys srcDir idx cc.importSpec.modulePath with
        | .error e => .error e
        | .ok (newModule, w₃) =>
          .ok ({ cc with
                 renderModuleFilePath := newRender
                 cssFilePath := newCss
                 importSpec := { modulePath := newModule } }, w₁ ++ w₂ ++ w₃)
      else
        .ok ({ cc with
               renderModuleFilePath := newRender
               cssFilePath := newCss }, w₁ ++ w₂)

/-- Embeds `fixProjectFilePaths(srcDir, projectConfig, baseNameToFiles)`:
reconcile the context file path and the fonts file path. -/
def fixProjectFilePaths (fileSys : FS) (srcDir : Path) (idx : FileIndex)
    (pj : ProjectConfig) :
    Except SyncError (ProjectConfig × List (Path × Path)) :=
  match fixOnePath fileSys srcDir idx pj.contextFilePath with
  | .error e => .error e
  | .ok (newContext, w₁) =>
    match fixOnePath fileSys srcDir idx pj.fontsFilePath with
    | .error e => .error e
    | .ok (newFonts, w₂) =>
      .ok ({ pj with
             contextFilePath := newContext
             fontsFilePath := newFonts }, w₁ ++ w₂)

/-- One component bundle fetched from the server (`ComponentBundle`). -/
structure ComponentBundle where
  renderModule : String
  skeletonModule : String
  cssRules : String
  renderModuleFileName : Path
  skeletonModuleFileName : Path
  cssFileName : Path
  componentName : String
  id : String
deriving DecidableEq

/-- The project-level part of a fetched bundle
(`projectBundle.projectConfig`). -/
structure ProjectBundleConfig where
  projectId : String
  contextFileName : Path
  fontsFileName : Path
  contextModule : String
  fontsModule : String
  contextTypeName : String
deriving DecidableEq

/-- One fetched project bundle (`ProjectBundle`). -/
structure ProjectBundle where
  results : List ComponentBundle
  projectConfig : ProjectBundleConfig
deriving DecidableEq

/-- Observable events of a pass, in order: a `writeFileContent` call
(with its `force` flag), a `Detected file moved` warning, the
`updateConfig` persist (recording which collections were written back),
and one import-rewrite of a file (recording the component and project
tables handed to `replaceImports`). -/
inductive Event where
  | wrote (p : Path) (content : String) (force : Bool)
  | warnedMove (oldPath newPath : Path)
  | persisted (components : List ComponentConfig) (projects : Option (List ProjectConfig))
  | rewrote (p : Path) (components : List ComponentConfig) (projects : List ProjectConfig)
deriving DecidableEq

/-- Whether an event is a `writeFileContent` call. -/
def Event.isWrite : Event → Bool
  | .wrote _ _ _ => true
  | _ => false

/-- Whether an event is a move warning. -/
def Event.isWarn : Event → Bool
  | .warnedMove _ _ => true
  | _ => false

/-- The mutable state of one pass: the filesystem, the in-memory
`config.components` and `config.projects` collections, and the trace of
observable events so far. -/
structure PassState where
  files : FS
  components : List ComponentConfig
  projects : List ProjectConfig
  trace : List Event
deriving DecidableEq

/-- Result of a (partial) pass: normal completion, or an abort
(`process.exit(1)` on ambiguity, or a thrown I/O error), carrying the
state at the moment of the abort — nothing after that point runs. -/
inductive PassResult where
  | ok (st : PassState)
  | aborted (e : SyncError) (st : PassState)
deriving DecidableEq

/-- Sequencing of pass steps: an abort short-circuits everything after. -/
def PassResult.andThen : PassResult → (PassState → PassResult) → PassResult
  | .ok st, f => f st
  | .aborted e st, _ => .aborted e st

/-- The state carried by a pass result. -/
def PassResult.state : PassResult → PassState
  | .ok st => st
  | .aborted _ st => st

/-- Embeds the `components` local of `syncProjects`: the explicit
`--components` list when non-empty, else all tracked component ids. -/
def effectiveComponents (optsComponents configIds : List String) : List String :=
  if optsComponents.length > 0 then optsComponents else configIds

/-- Embeds the `shouldSyncComponents(id, name)` closure of
`syncProjects`: sync everything when the effective list is empty or when
no explicit filter was given and `--include-new` is set; otherwise sync
exactly the components whose id or name is in the effective list. -/
def shouldSyncComponents (optsComponents configIds : List String)
    (includeNew : Bool) (id name : String) : Bool :=
  let components := effectiveComponents optsComponents configIds
  if components.length = 0 ∨ (optsComponents.length = 0 ∧ includeNew = true) then true
  else components.contains id || components.contains name

/-- The spec sentence on component selection, taken literally: included
iff no explicit filter was given, or the id or name is explicitly
requested, or no explicit filter was given, the include-new flag is set
and the component is new. -/
def specShouldSync (optsComponents : List String) (includeNew : Bool)
    (isNew : Bool) (id name : String) : Bool :=
  optsComponents.length = 0 || optsComponents.contains id ||
    optsComponents.contains name ||
    (optsComponents.length = 0 && includeNew && isNew)

/-- Embeds the body of the per-bundle loop of `syncProjects`: skip the
bundle unless `shouldSync`; for a first-time component create the
tracked entry from the bundle's file-name hints and write render, css
and skeleton files create-only; for an existing component reconcile its
paths with `fixComponentPaths` (aborting on ambiguity) and then
force-overwrite the render and css files at the reconciled paths. -/
def processBundle (isLocal : Path → Bool) (srcDir : Path) (idx : FileIndex)
    (shouldSync : String → String → Bool) (projectId : String)
    (st : PassState) (b : ComponentBundle) : PassResult :=
  if shouldSync b.id b.componentName = false then .ok st
  else
    match st.components.find? (fun c => c.id = b.id) with
    | none =>
      let newCC : ComponentConfig :=
        { id := b.id
          name := b.componentName
          type := "managed"
          projectId := projectId
          renderModuleFilePath := b.renderModuleFileName
          importSpec := { modulePath := b.skeletonModuleFileName }
          cssFilePath := b.cssFileName }
      let f₁ := writeFileContent st.files (srcDir ++ b.renderModuleFileName) b.renderModule false
      let f₂ := writeFileContent f₁ (srcDir ++ b.cssFileName) b.cssRules false
      let f₃ := writeFileContent f₂ (srcDir ++ b.skeletonModuleFileName) b.skeletonModule false
      .ok { files := f₃
            components := st.components ++ [newCC]
            projects := st.projects
            trace := st.trace ++
              [.wrote (srcDir ++ b.renderModuleFileName) b.renderModule false,
               .wrote (srcDir ++ b.cssFileName) b.cssRules false,
               .wrote (srcDir ++ b.skeletonModuleFileName) b.skeletonModule false] }
    | some cc =>
      match fixComponentPaths isLocal st.files srcDir idx cc with
      | .error e => .aborted e st
      | .ok (cc', ws) =>
        let f₁ := writeFileContent st.files (srcDir ++ cc'.renderModuleFilePath) b.renderModule true
        let f₂ := writeFileContent f₁ (srcDir ++ cc'.cssFilePath) b.cssRules true
        .ok { files := f₂
              components := st.components.map (fun c => if c.id = b.id then cc' else c)
              projects := st.projects
              trace := st.trace ++ ws.map (fun w => Event.warnedMove w.1 w.2) ++
                [.wrote (srcDir ++ cc'.renderModuleFilePath) b.renderModule true,
                 .wrote (srcDir ++ cc'.cssFilePath) b.cssRules true] }

/-- The per-bundle loop over one project's component bundles. -/
def processBundles (isLocal : Path → Bool) (srcDir : Path) (idx : FileIndex)
    (shouldSync : String → String → Bool) (projectId : String) :
    PassState → List ComponentBundle → PassResult
  | st, [] => .ok st
  | st, b :: bs =>
    (processBundle isLocal srcDir idx shouldSync projectId st b).andThen
      (fun st' => processBundles isLocal srcDir idx shouldSync projectId st' bs)

/-- Embeds the per-project tail of the `syncProjects` loop: for a
first-time project write the context and fonts files create-only and
append a tracked project entry from the hints; for an existing project
reconcile its paths with `fixProjectFilePaths` and force-overwrite the
context and fonts files at the reconciled paths. -/
def processProjectFiles (srcDir : Path) (idx : FileIndex)
    (st : PassState) (pc : ProjectBundleConfig) : PassResult :=
  match st.projects.find? (fun p => p.projectId = pc.projectId) with
  | none =>
    let f₁ := writeFileContent st.files (srcDir ++ pc.contextFileName) pc.contextModule false
    let f₂ := writeFileContent f₁ (srcDir ++ pc.fontsFileName) pc.fontsModule false
    .ok { st with
          files := f₂
          projects := st.projects ++
            [{ projectId := pc.projectId
               contextFilePath := pc.contextFileName
               fontsFilePath := pc.fontsFileName
               contextTypeName := pc.contextTypeName }]
          trace := st.trace ++
            [.wrote (srcDir ++ pc.contextFileName) pc.contextModule false,
             .wrote (srcDir ++ pc.fontsFileName) pc.fontsModule false] }
  | some pj =>
    match fixProjectFilePaths st.files srcDir idx pj with
    | .error e => .aborted e st
    | .ok (pj', ws) =>
      let f₁ := writeFileContent st.files (srcDir ++ pj'.contextFilePath) pc.contextModule true
      let f₂ := writeFileContent f₁ (srcDir ++ pj'.fontsFilePath) pc.fontsModule true
      .ok { st with
            files := f₂
            projects := st.projects.map (fun p => if p.projectId = pc.projectId then pj' else p)
            trace := st.trace ++ ws.map (fun w => Event.warnedMove w.1 w.2) ++
              [.wrote (srcDir ++ pj'.contextFilePath) pc.contextModule true,
               .wrote (srcDir ++ pj'.fontsFilePath) pc.fontsModule true] }

/-- One iteration of the outer loop of `syncProjects`: all component
bundles of a project, then the project-level files. -/
def processProject (isLocal : Path → Bool) (srcDir : Path) (idx : FileIndex)
    (shouldSync : String → String → Bool) (st : PassState)
    (pr : String × ProjectBundle) : PassResult :=
  (processBundles isLocal srcDir idx shouldSync pr.1 st pr.2.results).andThen
    (fun st' => processProjectFiles srcDir idx st' pr.2.projectConfig)

/-- The outer loop of `syncProjects` over all fetched project bundles. -/
def processAllProjects (isLocal : Path → Bool) (srcDir : Path) (idx : FileIndex)
    (shouldSync : String → String → Bool) :
    PassState → List (String × ProjectBundle) → PassResult
  | st, [] => .ok st
  | st, pr :: prs =>
    (processProject isLocal srcDir idx shouldSync st pr).andThen
      (fun st' => processAllProjects isLocal srcDir idx shouldSync st' prs)

/-- Embeds `fixFileImportStatements(srcDir, srcDirFilePath, ...)`: read
the file (a missing file throws, aborting the pass), rewrite its
references with `replaceImports` against the given tables, and write the
result back with force semantics. `ri` embeds `replaceImports` from
`./code-utils`, which is not among the provided sources, so it is kept
as a parameter. -/
def fixFileImportStatements
    (ri : String → Path → List ComponentConfig → List ProjectConfig → String)
    (srcDir : Path) (comps : List ComponentConfig) (projs : List ProjectConfig)
    (st : PassState) (p : Path) : PassResult :=
  match getFile st.files (srcDir ++ p) with
  | none => .aborted (.missingFile (srcDir ++ p)) st
  | some prevContent =>
    .ok { st with
          files := writeFileContent st.files (srcDir ++ p) (ri prevContent p comps projs) true
          trace := st.trace ++ [.rewrote (srcDir ++ p) comps projs] }

/-- Embeds `fixComponentImportStatements`: rewrite the render module
file, the css file, and — when the import module path is local — also
the import module file. -/
def fixComponentImportStatements (isLocal : Path → Bool)
    (ri : String → Path → List ComponentConfig → List ProjectConfig → String)
    (srcDir : Path) (comps : List ComponentConfig) (projs : List ProjectConfig)
    (st : PassState) (cc : ComponentConfig) : PassResult :=
  (fixFileImportStatements ri srcDir comps projs st cc.renderModuleFilePath).andThen
    (fun st₁ =>
      (fixFileImportStatements ri srcDir comps projs st₁ cc.cssFilePath).andThen
        (fun st₂ =>
          if isLocal cc.importSpec.modulePath then
            fixFileImportStatements ri srcDir comps projs st₂ cc.importSpec.modulePath
          else .ok st₂))

/-- The loop of `fixAllImportStatements` over the component list. -/
def fixImportsLoop (isLocal : Path → Bool)
    (ri : String → Path → List ComponentConfig → List ProjectConfig → String)
    (srcDir : Path) (comps : List ComponentConfig) (projs : List ProjectConfig) :
    PassState → List ComponentConfig → PassResult
  | st, [] => .ok st
  | st, c :: cs =>
    (fixComponentImportStatements isLocal ri srcDir comps projs st c).andThen
      (fun st' => fixImportsLoop isLocal ri srcDir comps projs st' cs)

/-- Embeds `fixAllImportStatements(context)`: snapshot the tables from
the current collections and rewrite every tracked component's files
against them. -/
def fixAllImportStatements (isLocal : Path → Bool)
    (ri : String → Path → List ComponentConfig → List ProjectConfig → String)
    (srcDir : Path) (st : PassState) : PassResult :=
  fixImportsLoop isLocal ri srcDir st.components st.projects st st.components

/-- Embeds `syncProjects` after fetching: process every fetched project
bundle (reconciling and writing), persist both collections with
`updateConfig`, then run `fixAllImportStatements` on the final tables.
The base-name index `idx` is built once before the loop
(`buildBaseNameToFiles`, a `glob` over the source tree — external
library — grouped by base name) and shared read-only. -/
def syncProjectsModel (isLocal : Path → Bool)
    (ri : String → Path → List ComponentConfig → List ProjectConfig → String)
    (srcDir : Path) (idx : FileIndex) (optsComponents : List String)
    (includeNew : Bool) (st : PassState)
    (projectBundles : List (String × ProjectBundle)) : PassResult :=
  (processAllProjects isLocal srcDir idx
      (shouldSyncComponents optsComponents (st.components.map (fun c => c.id)) includeNew)
      st projectBundles).andThen
    (fun st₁ =>
      fixAllImportStatements isLocal ri srcDir
        { st₁ with
          trace := st₁.trace ++ [.persisted st₁.components (some st₁.projects)] })

/-- The loop of the standalone `fix-imports` command over the component
list: reconcile every entry against a read-only filesystem, collecting
the updated entries and the move warnings, or abort on ambiguity. -/
def fixComponentsLoop (isLocal : Path → Bool) (fileSys : FS) (srcDir : Path)
    (idx : FileIndex) :
    List ComponentConfig → Except SyncError (List ComponentConfig × List (Path × Path))
  | [] => .ok ([], [])
  | c :: cs =>
    match fixComponentPaths isLocal fileSys srcDir idx c with
    | .error e => .error e
    | .ok (c', ws) =>
      match fixComponentsLoop isLocal fileSys srcDir idx cs with
      | .error e => .error e
      | .ok (cs', ws') => .ok (c' :: cs', ws ++ ws')

/-- Embeds the standalone `fixImports(opts)` command: reconcile every
tracked component's paths, persist the component collection only
(`updateConfig(context, { components })` — the projects collection is
not written back and `fixProjectFilePaths` is never invoked), then run
`fixAllImportStatements`. -/
def fixImportsModel (isLocal : Path → Bool)
    (ri : String → Path → List ComponentConfig → List ProjectConfig → String)
    (srcDir : Path) (idx : FileIndex) (st : PassState) : PassResult :=
  match fixComponentsLoop isLocal st.files srcDir idx st.components with
  | .error e => .aborted e st
  | .ok (cs', ws) =>
    let st₁ := { st with
                 components := cs'
                 trace := st.trace ++ ws.map (fun w => Event.warnedMove w.1 w.2) ++
                   [.persisted cs' none] }
    fixAllImportStatements isLocal ri srcDir st₁

/-! Basic lemmas about one reconciliation step. -/

theorem fixOnePath_of_found_self (fileSys : FS) (srcDir : Path) (idx : FileIndex)
    (declared : Path)
    (h : findSrcDirPath fileSys srcDir declared idx = .found declared) :
    fixOnePath fileSys srcDir idx declared = .ok (declared, []) := by
  simp [fixOnePath, h]

theorem fixOnePath_warnings_ne (fileSys : FS) (srcDir : Path) (idx : FileIndex)
    (declared newPath : Path) (ws : List (Path × Path))
    (h : fixOnePath fileSys srcDir idx declared = .ok (newPath, ws)) :
    ∀ w ∈ ws, w.1 ≠ w.2 := by
  unfold fixOnePath at h
  split at h
  case h_1 p hp =>
    split at h
    · simp only [Except.ok.injEq, Prod.mk.injEq] at h
      simp [← h.2]
    case isFalse hne =>
      simp only [Except.ok.injEq, Prod.mk.injEq] at h
      obtain ⟨hn, hw⟩ := h
      intro w hw'
      rw [← hw] at hw'
      simp only [List.mem_singleton] at hw'
      subst hw'
      simp only [ne_eq]
      intro hc
      exact hne hc.symm
  case h_2 => exact absurd h (by simp)

/-- C2: for every reconciliation call where the file does not exist at
`srcDir/expectedPath` and exactly one indexed file shares its bare name,
`findSrcDirPath` returns that file's path expressed relative to
`srcDir`. -/
theorem findSrcDirPath_unique_move (fileSys : FS) (srcDir expected : Path)
    (idx : FileIndex) (f : Path)
    (hne : existsSync fileSys (srcDir ++ expected) = false)
    (hlk : lookupIndex idx (baseName expected) = some [f]) :
    findSrcDirPath fileSys srcDir expected idx = .found (pathRelative srcDir f) := by
  simp [findSrcDirPath, hne, hlk]

theorem findSrcDirPath_unique_move_witness :
    findSrcDirPath [] ["src"] ["old", "Button.tsx"]
        [("Button.tsx", [["src", "components", "Button.tsx"]])]
      = .found (pathRelative ["src"] ["src", "components", "Button.tsx"]) :=
  findSrcDirPath_unique_move [] ["src"] ["old", "Button.tsx"]
    [("Button.tsx", [["src", "components", "Button.tsx"]])]
    ["src", "components", "Button.tsx"] (by decide) (by decide)

/-- C3: for every reconciliation call, if a file exists at
`srcDir/expectedPath`, or if no indexed file shares the expected path's
bare name, `findSrcDirPath` returns the original expected path
unchanged; and in the existing-file case the caller's reconciliation
step emits no move warning and keeps the declared path. -/
theorem findSrcDirPath_fixed_point (fileSys : FS) (srcDir expected : Path)
    (idx : FileIndex)
    (h : existsSync fileSys (srcDir ++ expected) = true ∨
         lookupIndex idx (baseName expected) = none) :
    findSrcDirPath fileSys srcDir expected idx = .found expected ∧
    (existsSync fileSys (srcDir ++ expected) = true →
      fixOnePath fileSys srcDir idx expected = .ok (expected, [])) := by
  have hfound : findSrcDirPath fileSys srcDir expected idx = .found expected := by
    rcases h with h | h
    · simp [findSrcDirPath, h]
    · cases hE : existsSync fileSys (srcDir ++ expected) with
      | true => simp [findSrcDirPath, hE]
      | false => simp [findSrcDirPath, hE, h]
  exact ⟨hfound, fun _ => fixOnePath_of_found_self fileSys srcDir idx expected hfound⟩

theorem findSrcDirPath_fixed_point_witness :
    (findSrcDirPath [(["src", "a", "B.tsx"], "code")] ["src"] ["a", "B.tsx"]
        [("B.tsx", [["src", "a", "B.tsx"]])] = .found ["a", "B.tsx"] ∧
      (existsSync [(["src", "a", "B.tsx"], "code")] (["src"] ++ ["a", "B.tsx"]) = true →
        fixOnePath [(["src", "a", "B.tsx"], "code")] ["src"]
          [("B.tsx", [["src", "a", "B.tsx"]])] ["a", "B.tsx"] = .ok (["a", "B.tsx"], []))) :=
  findSrcDirPath_fixed_point [(["src", "a", "B.tsx"], "code")] ["src"] ["a", "B.tsx"]
    [("B.tsx", [["src", "a", "B.tsx"]])] (Or.inl (by decide))

/-- C8: for every path, content and pre-existing file state, a write
invoked with `force = false` against a path where a file already exists
is a no-op: the filesystem after the call equals the filesystem before
(spec-modelled: `writeFileContent` lives in `file-utils`, which is not
among the provided sources). -/
theorem writeFileContent_create_only_noop (fileSys : FS) (p : Path) (content : String)
    (h : existsSync fileSys p = true) :
    writeFileContent fileSys p content false = fileSys := by
  simp [writeFileContent, h]

theorem writeFileContent_create_only_noop_witness :
    writeFileContent [(["src", "A.tsx"], "user edits")] ["src", "A.tsx"] "fresh" false
      = [(["src", "A.tsx"], "user edits")] :=
  writeFileContent_create_only_noop [(["src", "A.tsx"], "user edits")] ["src", "A.tsx"]
    "fresh" (by decide)

/-- C9: `fixComponentPaths` mutates at most the three path fields
`renderModuleFilePath`, `cssFilePath` and `importSpec.modulePath` (the
latter only when the module path is local); `id`, `name`, `type` and
`projectId` are left unchanged, and a path field keeps its declared
value whenever its resolution returns the declared path. -/
theorem fixComponentPaths_frame (isLocal : Path → Bool) (fileSys : FS) (srcDir : Path)
    (idx : FileIndex) (cc cc' : ComponentConfig) (ws : List (Path × Path))
    (h : fixComponentPaths isLocal fileSys srcDir idx cc = .ok (cc', ws)) :
    cc'.id = cc.id ∧ cc'.name = cc.name ∧ cc'.type = cc.type ∧
    cc'.projectId = cc.projectId ∧
    (isLocal cc.importSpec.modulePath = false → cc'.importSpec = cc.importSpec) ∧
    (findSrcDirPath fileSys srcDir cc.renderModuleFilePath idx
        = .found cc.renderModuleFilePath →
      cc'.renderModuleFilePath = cc.renderModuleFilePath) ∧
    (findSrcDirPath fileSys srcDir cc.cssFilePath idx = .found cc.cssFilePath →
      cc'.cssFilePath = cc.cssFilePath) ∧
    (findSrcDirPath fileSys srcDir cc.importSpec.modulePath idx
        = .found cc.importSpec.modulePath →
      cc'.importSpec.modulePath = cc.importSpec.modulePath) := by
  unfold fixComponentPaths at h
  rcases h₁ : fixOnePath fileSys srcDir idx cc.renderModuleFilePath with e | ⟨newRender, w₁⟩ <;>
    rw [h₁] at h
  · exact absurd h (by simp)
  rcases h₂ : fixOnePath fileSys srcDir idx cc.cssFilePath with e | ⟨newCss, w₂⟩ <;>
    rw [h₂] at h
  · exact absurd h (by simp)
  have hrender : findSrcDirPath fileSys srcDir cc.renderModuleFilePath idx
      = .found cc.renderModuleFilePath → newRender = cc.renderModuleFilePath := by
    intro hf
    have := fixOnePath_of_found_self fileSys srcDir idx cc.renderModuleFilePath hf
    rw [h₁] at this
    simp only [Except.ok.injEq, Prod.mk.injEq] at this
    exact this.1
  have hcss : findSrcDirPath fileSys srcDir cc.cssFilePath idx = .found cc.cssFilePath →
      newCss = cc.cssFilePath := by
    intro hf
    have := fixOnePath_of_found_self fileSys srcDir idx cc.cssFilePath hf
    rw [h₂] at this
    simp only [Except.ok.injEq, Prod.mk.injEq] at this
    exact this.1
  cases hL : isLocal cc.importSpec.modulePath with
  | false =>
    rw [hL] at h
    simp only [Bool.false_eq_true, if_false, Except.ok.injEq, Prod.mk.injEq] at h
    obtain ⟨hcc, _⟩ := h
    subst hcc
    refine ⟨rfl, rfl, rfl, rfl, fun _ => rfl, fun hf => hrender hf, fun hf => hcss hf,
      fun _ => rfl⟩
  | true =>
    rw [hL] at h
    simp only [if_true] at h
    rcases h₃ : fixOnePath fileSys srcDir idx cc.importSpec.modulePath with e | ⟨newModule, w₃⟩ <;>
      rw [h₃] at h
    · exact absurd h (by simp)
    have hmod : findSrcDirPath fileSys srcDir cc.importSpec.modulePath idx
        = .found cc.importSpec.modulePath → newModule = cc.importSpec.modulePath := by
      intro hf
      have := fixOnePath_of_found_self fileSys srcDir idx cc.importSpec.modulePath hf
      rw [h₃] at this
      simp only [Except.ok.injEq, Prod.mk.injEq] at this
      exact this.1
    simp only [Except.ok.injEq, Prod.mk.injEq] at h
    obtain ⟨hcc, _⟩ := h
    subst hcc
    exact ⟨rfl, rfl, rfl, rfl, by simp [hL], fun hf => hrender hf, fun hf => hcss hf,
      fun hf => hmod hf⟩

theorem fixComponentPaths_frame_witness :
    (let cc : ComponentConfig :=
      { id := "c1", name := "Button", type := "managed", projectId := "p1"
        renderModuleFilePath := ["PlasmicButton.tsx"]
        importSpec := { modulePath := ["Button.tsx"] }
        cssFilePath := ["PlasmicButton.css"] }
    let fileSys : FS :=
      [(["src", "PlasmicButton.tsx"], "r"), (["src", "PlasmicButton.css"], "c"),
       (["src", "Button.tsx"], "s")]
    let cc' : ComponentConfig := cc
    cc'.id = cc.id ∧ cc'.name = cc.name ∧ cc'.type = cc.type ∧
    cc'.projectId = cc.projectId ∧
    (((fun _ => true) : Path → Bool) cc.importSpec.modulePath = false →
      cc'.importSpec = cc.importSpec) ∧
    (findSrcDirPath fileSys ["src"] cc.renderModuleFilePath []
        = .found cc.renderModuleFilePath →
      cc'.renderModuleFilePath = cc.renderModuleFilePath) ∧
    (findSrcDirPath fileSys ["src"] cc.cssFilePath [] = .found cc.cssFilePath →
      cc'.cssFilePath = cc.cssFilePath) ∧
    (findSrcDirPath fileSys ["src"] cc.importSpec.modulePath []
        = .found cc.importSpec.modulePath →
      cc'.importSpec.modulePath = cc.importSpec.modulePath)) :=
  fixComponentPaths_frame (fun _ => true) _ ["src"] [] _ _ [] rfl

/-! Branch characterizations of the per-bundle step, shared by several
results below. -/

theorem processBundle_skip (isLocal : Path → Bool) (srcDir : Path) (idx : FileIndex)
    (shouldSync : String → String → Bool) (pid : String) (st : PassState)
    (b : ComponentBundle)
    (h : shouldSync b.id b.componentName = false) :
    processBundle isLocal srcDir idx shouldSync pid st b = .ok st := by
  simp [processBundle, h]

theorem processBundle_new (isLocal : Path → Bool) (srcDir : Path) (idx : FileIndex)
    (shouldSync : String → String → Bool) (pid : String) (st : PassState)
    (b : ComponentBundle)
    (hsync : shouldSync b.id b.componentName = true)
    (hfind : st.components.find? (fun c => c.id = b.id) = none) :
    processBundle isLocal srcDir idx shouldSync pid st b = .ok
      { files := writeFileContent
          (writeFileContent
            (writeFileContent st.files (srcDir ++ b.renderModuleFileName) b.renderModule false)
            (srcDir ++ b.cssFileName) b.cssRules false)
          (srcDir ++ b.skeletonModuleFileName) b.skeletonModule false
        components := st.components ++
          [{ id := b.id
             name := b.componentName
             type := "managed"
             projectId := pid
             renderModuleFilePath := b.renderModuleFileName
             importSpec := { modulePath := b.skeletonModuleFileName }
             cssFilePath := b.cssFileName }]
        projects := st.projects
        trace := st.trace ++
          [.wrote (srcDir ++ b.renderModuleFileName) b.renderModule false,
           .wrote (srcDir ++ b.cssFileName) b.cssRules false,
           .wrote (srcDir ++ b.skeletonModuleFileName) b.skeletonModule false] } := by
  simp [processBundle, hsync, hfind]

theorem processBundle_existing (isLocal : Path → Bool) (srcDir : Path) (idx : FileIndex)
    (shouldSync : String → String → Bool) (pid : String) (st : PassState)
    (b : ComponentBundle) (cc cc' : ComponentConfig) (ws : List (Path × Path))
    (hsync : shouldSync b.id b.componentName = true)
    (hfind : st.components.find? (fun c => c.id = b.id) = some cc)
    (hfix : fixComponentPaths isLocal st.files srcDir idx cc = .ok (cc', ws)) :
    processBundle isLocal srcDir idx shouldSync pid st b = .ok
      { files := writeFileContent
          (writeFileContent st.files (srcDir ++ cc'.renderModuleFilePath) b.renderModule true)
          (srcDir ++ cc'.cssFilePath) b.cssRules true
        components := st.components.map (fun c => if c.id = b.id then cc' else c)
        projects := st.projects
        trace := st.trace ++ ws.map (fun w => Event.warnedMove w.1 w.2) ++
          [.wrote (srcDir ++ cc'.renderModuleFilePath) b.renderModule true,
           .wrote (srcDir ++ cc'.cssFilePath) b.cssRules true] } := by
  simp [processBundle, hsync, hfind, hfix]

theorem processBundle_existing_aborts (isLocal : Path → Bool) (srcDir : Path)
    (idx : FileIndex) (shouldSync : String → String → Bool) (pid : String)
    (st : PassState) (b : ComponentBundle) (cc : ComponentConfig) (e : SyncError)
    (hsync : shouldSync b.id b.componentName = true)
    (hfind : st.components.find? (fun c => c.id = b.id) = some cc)
    (hfix : fixComponentPaths isLocal st.files srcDir idx cc = .error e) :
    processBundle isLocal srcDir idx shouldSync pid st b = .aborted e st := by
  simp [processBundle, hsync, hfind, hfix]

theorem fixComponentPaths_warnings_ne (isLocal : Path → Bool) (fileSys : FS)
    (srcDir : Path) (idx : FileIndex) (cc cc' : ComponentConfig)
    (ws : List (Path × Path))
    (h : fixComponentPaths isLocal fileSys srcDir idx cc = .ok (cc', ws)) :
    ∀ w ∈ ws, w.1 ≠ w.2 := by
  unfold fixComponentPaths at h
  rcases h₁ : fixOnePath fileSys srcDir idx cc.renderModuleFilePath with e | ⟨r, w₁⟩ <;>
    rw [h₁] at h
  · exact absurd h (by simp)
  rcases h₂ : fixOnePath fileSys srcDir idx cc.cssFilePath with e | ⟨c, w₂⟩ <;>
    rw [h₂] at h
  · exact absurd h (by simp)
  cases hL : isLocal cc.importSpec.modulePath with
  | false =>
    rw [hL] at h
    simp only [Bool.false_eq_true, if_false, Except.ok.injEq, Prod.mk.injEq] at h
    obtain ⟨_, hws⟩ := h
    intro w hw
    rw [← hws] at hw
    rcases List.mem_append.mp hw with hw' | hw'
    · exact fixOnePath_warnings_ne fileSys srcDir idx cc.renderModuleFilePath r w₁ h₁ w hw'
    · exact fixOnePath_warnings_ne fileSys srcDir idx cc.cssFilePath c w₂ h₂ w hw'
  | true =>
    rw [hL] at h
    simp only [if_true] at h
    rcases h₃ : fixOnePath fileSys srcDir idx cc.importSpec.modulePath with e | ⟨m, w₃⟩ <;>
      rw [h₃] at h
    · exact absurd h (by simp)
    simp only [Except.ok.injEq, Prod.mk.injEq] at h
    obtain ⟨_, hws⟩ := h
    intro w hw
    rw [← hws] at hw
    rcases List.mem_append.mp hw with hw' | hw'
    · rcases List.mem_append.mp hw' with hw'' | hw''
      · exact fixOnePath_warnings_ne fileSys srcDir idx cc.renderModuleFilePath r w₁ h₁ w hw''
      · exact fixOnePath_warnings_ne fileSys srcDir idx cc.cssFilePath c w₂ h₂ w hw''
    · exact fixOnePath_warnings_ne fileSys srcDir idx cc.importSpec.modulePath m w₃ h₃ w hw'

/-- C5 counterexample: with no explicit `--components` filter, one
tracked component of id `a`, and `--include-new` unset, the code does
not sync a new component with id `b` and name `B` (the bundle is
skipped and the state is untouched), although the claim's selection
rule — "included when no explicit component filter was given" — would
include it. -/
theorem shouldSync_spec_counterexample :
    shouldSyncComponents [] ["a"] false "b" "B" = false ∧
    specShouldSync [] false true "b" "B" = true ∧
    processBundle (fun _ => false) ["src"] [] (shouldSyncComponents [] ["a"] false) "p1"
      { files := [], components := [], projects := [], trace := [] }
      { renderModule := "r", skeletonModule := "s", cssRules := "c"
        renderModuleFileName := ["R.tsx"]
        skeletonModuleFileName := ["S.tsx"]
        cssFileName := ["S.css"]
        componentName := "B", id := "b" }
      = .ok { files := [], components := [], projects := [], trace := [] } := by
  refine ⟨by decide, by decide, ?_⟩
  exact processBundle_skip _ _ _ _ _ _ _ (by decide)

/-- C5 (amended): a component from a bundle is included (synced) exactly
when the effective filter list — the explicit `--components` list if
non-empty, else the ids of the already-tracked components — is empty,
or no explicit filter was given and `--include-new` is set (regardless
of whether the component is new), or its id or name occurs in the
effective list; a bundle failing this predicate is skipped without any
effect on the pass state. -/
theorem shouldSync_selection_characterization
    (optsComponents configIds : List String) (includeNew : Bool) (id name : String) :
    (shouldSyncComponents optsComponents configIds includeNew id name = true ↔
      effectiveComponents optsComponents configIds = [] ∨
      (optsComponents = [] ∧ includeNew = true) ∨
      id ∈ effectiveComponents optsComponents configIds ∨
      name ∈ effectiveComponents optsComponents configIds) ∧
    (∀ (isLocal : Path → Bool) (srcDir : Path) (idx : FileIndex) (pid : String)
        (st : PassState) (b : ComponentBundle),
      shouldSyncComponents optsComponents configIds includeNew b.id b.componentName
          = false →
      processBundle isLocal srcDir idx
        (shouldSyncComponents optsComponents configIds includeNew) pid st b = .ok st) := by
  constructor
  · unfold shouldSyncComponents
    by_cases hc : (effectiveComponents optsComponents configIds).length = 0 ∨
        (optsComponents.length = 0 ∧ includeNew = true)
    · rw [if_pos hc]
      have hRHS : effectiveComponents optsComponents configIds = [] ∨
          (optsComponents = [] ∧ includeNew = true) ∨
          id ∈ effectiveComponents optsComponents configIds ∨
          name ∈ effectiveComponents optsComponents configIds := by
        rcases hc with h | ⟨h1, h2⟩
        · exact Or.inl (List.length_eq_zero.mp h)
        · exact Or.inr (Or.inl ⟨List.length_eq_zero.mp h1, h2⟩)
      simp [hRHS]
    · rw [if_neg hc]
      push_neg at hc
      have he : ¬ effectiveComponents optsComponents configIds = [] := by
        intro h
        exact hc.1 (by simp [h])
      have ho : ¬ (optsComponents = [] ∧ includeNew = true) := by
        rintro ⟨ha, hb⟩
        exact hc.2 (by simp [ha]) hb
      simp [he, ho]
  · intro isLocal srcDir idx pid st b h
    exact processBundle_skip isLocal srcDir idx _ pid st b h

theorem shouldSync_selection_characterization_witness :
    (shouldSyncComponents ["b"] ["a"] false "b" "B" = true ↔
      effectiveComponents ["b"] ["a"] = [] ∨
      ((["b"] : List String) = [] ∧ false = true) ∨
      "b" ∈ effectiveComponents ["b"] ["a"] ∨
      "B" ∈ effectiveComponents ["b"] ["a"]) ∧
    (∀ (isLocal : Path → Bool) (srcDir : Path) (idx : FileIndex) (pid : String)
        (st : PassState) (b : ComponentBundle),
      shouldSyncComponents ["b"] ["a"] false b.id b.componentName = false →
      processBundle isLocal srcDir idx (shouldSyncComponents ["b"] ["a"] false) pid st b
        = .ok st) :=
  shouldSync_selection_characterization ["b"] ["a"] false "b" "B"

/-- C6: for every existing tracked component processed in a sync pass,
every emitted move warning records a genuine discrepancy (declared and
resolved paths differ), the step succeeds (non-fatal), the tracked
entry is replaced by the reconciled entry, and the force-overwrites of
render module and css land at the reconciled paths, with the warnings
traced before the writes. -/
theorem existing_component_reconcile_before_overwrite (isLocal : Path → Bool)
    (srcDir : Path) (idx : FileIndex) (shouldSync : String → String → Bool)
    (pid : String) (st : PassState) (b : ComponentBundle) (cc cc' : ComponentConfig)
    (ws : List (Path × Path))
    (hsync : shouldSync b.id b.componentName = true)
    (hfind : st.components.find? (fun c => c.id = b.id) = some cc)
    (hfix : fixComponentPaths isLocal st.files srcDir idx cc = .ok (cc', ws)) :
    (∀ w ∈ ws, w.1 ≠ w.2) ∧
    processBundle isLocal srcDir idx shouldSync pid st b = .ok
      { files := writeFileContent
          (writeFileContent st.files (srcDir ++ cc'.renderModuleFilePath) b.renderModule true)
          (srcDir ++ cc'.cssFilePath) b.cssRules true
        components := st.components.map (fun c => if c.id = b.id then cc' else c)
        projects := st.projects
        trace := st.trace ++ ws.map (fun w => Event.warnedMove w.1 w.2) ++
          [.wrote (srcDir ++ cc'.renderModuleFilePath) b.renderModule true,
           .wrote (srcDir ++ cc'.cssFilePath) b.cssRules true] } :=
  ⟨fixComponentPaths_warnings_ne isLocal st.files srcDir idx cc cc' ws hfix,
   processBundle_existing isLocal srcDir idx shouldSync pid st b cc cc' ws hsync hfind hfix⟩

theorem existing_component_reconcile_before_overwrite_witness :
    (let cc : ComponentConfig :=
      { id := "c1", name := "B", type := "managed", projectId := "p1"
        renderModuleFilePath := ["old", "B.tsx"]
        importSpec := { modulePath := ["B.sk"] }
        cssFilePath := ["B.css"] }
    let cc' : ComponentConfig := { cc with renderModuleFilePath := ["new", "B.tsx"] }
    let ws : List (Path × Path) := [(["old", "B.tsx"], ["new", "B.tsx"])]
    let st : PassState :=
      { files := [(["src", "B.css"], "css0")], components := [cc], projects := []
        trace := [] }
    let b : ComponentBundle :=
      { renderModule := "R", skeletonModule := "S", cssRules := "C"
        renderModuleFileName := ["R.tsx"], skeletonModuleFileName := ["S.tsx"]
        cssFileName := ["S.css"], componentName := "B", id := "c1" }
    (∀ w ∈ ws, w.1 ≠ w.2) ∧
    processBundle (fun _ => false) ["src"] [("B.tsx", [["src", "new", "B.tsx"]])]
        (fun _ _ => true) "p1" st b = .ok
      { files := writeFileContent
          (writeFileContent st.files (["src"] ++ cc'.renderModuleFilePath) b.renderModule true)
          (["src"] ++ cc'.cssFilePath) b.cssRules true
        components := st.components.map (fun c => if c.id = b.id then cc' else c)
        projects := st.projects
        trace := st.trace ++ ws.map (fun w => Event.warnedMove w.1 w.2) ++
          [.wrote (["src"] ++ cc'.renderModuleFilePath) b.renderModule true,
           .wrote (["src"] ++ cc'.cssFilePath) b.cssRules true] }) :=
  existing_component_reconcile_before_overwrite (fun _ => false) ["src"]
    [("B.tsx", [["src", "new", "B.tsx"]])] (fun _ _ => true) "p1" _ _ _ _ _
    rfl rfl rfl

/-- C7: for every synced component with no tracked entry matching its
id, the pass performs exactly three create-only writes (render module,
style, skeleton) and appends a tracked entry built from the bundle's
file-name hints; on a subsequent sync of the component (a tracked entry
exists) the step's trace delta holds exactly the move warnings and the
two force-overwrites of render module and css — the skeleton file is
never written again. -/
theorem new_component_create_only_writes (isLocal : Path → Bool) (srcDir : Path)
    (idx : FileIndex) (shouldSync : String → String → Bool) (pid : String)
    (st : PassState) (b : ComponentBundle)
    (hsync : shouldSync b.id b.componentName = true) :
    (st.components.find? (fun c => c.id = b.id) = none →
      processBundle isLocal srcDir idx shouldSync pid st b = .ok
        { files := writeFileContent
            (writeFileContent
              (writeFileContent st.files (srcDir ++ b.renderModuleFileName) b.renderModule false)
              (srcDir ++ b.cssFileName) b.cssRules false)
            (srcDir ++ b.skeletonModuleFileName) b.skeletonModule false
          components := st.components ++
            [{ id := b.id
               name := b.componentName
               type := "managed"
               projectId := pid
               renderModuleFilePath := b.renderModuleFileName
               importSpec := { modulePath := b.skeletonModuleFileName }
               cssFilePath := b.cssFileName }]
          projects := st.projects
          trace := st.trace ++
            [.wrote (srcDir ++ b.renderModuleFileName) b.renderModule false,
             .wrote (srcDir ++ b.cssFileName) b.cssRules false,
             .wrote (srcDir ++ b.skeletonModuleFileName) b.skeletonModule false] }) ∧
    (∀ (cc cc' : ComponentConfig) (ws : List (Path × Path)),
      st.components.find? (fun c => c.id = b.id) = some cc →
      fixComponentPaths isLocal st.files srcDir idx cc = .ok (cc', ws) →
      (processBundle isLocal srcDir idx shouldSync pid st b).state.trace
        = st.trace ++ ws.map (fun w => Event.warnedMove w.1 w.2) ++
          [.wrote (srcDir ++ cc'.renderModuleFilePath) b.renderModule true,
           .wrote (srcDir ++ cc'.cssFilePath) b.cssRules true]) := by
  constructor
  · intro hfind
    exact processBundle_new isLocal srcDir idx shouldSync pid st b hsync hfind
  · intro cc cc' ws hfind hfix
    rw [processBundle_existing isLocal srcDir idx shouldSync pid st b cc cc' ws hsync
      hfind hfix]
    rfl

theorem new_component_create_only_writes_witness :
    (let st : PassState := { files := [], components := [], projects := [], trace := [] }
    let b : ComponentBundle :=
      { renderModule := "R", skeletonModule := "S", cssRules := "C"
        renderModuleFileName := ["R.tsx"], skeletonModuleFileName := ["S.tsx"]
        cssFileName := ["S.css"], componentName := "B", id := "c1" }
    (st.components.find? (fun c => c.id = b.id) = none →
      processBundle (fun _ => false) ["src"] [] (fun _ _ => true) "p1" st b = .ok
        { files := writeFileContent
            (writeFileContent
              (writeFileContent st.files (["src"] ++ b.renderModuleFileName) b.renderModule false)
              (["src"] ++ b.cssFileName) b.cssRules false)
            (["src"] ++ b.skeletonModuleFileName) b.skeletonModule false
          components := st.components ++
            [{ id := b.id
               name := b.componentName
               type := "managed"
               projectId := "p1"
               renderModuleFilePath := b.renderModuleFileName
               importSpec := { modulePath := b.skeletonModuleFileName }
               cssFilePath := b.cssFileName }]
          projects := st.projects
          trace := st.trace ++
            [.wrote (["src"] ++ b.renderModuleFileName) b.renderModule false,
             .wrote (["src"] ++ b.cssFileName) b.cssRules false,
             .wrote (["src"] ++ b.skeletonModuleFileName) b.skeletonModule false] }) ∧
    (∀ (cc cc' : ComponentConfig) (ws : List (Path × Path)),
      st.components.find? (fun c => c.id = b.id) = some cc →
      fixComponentPaths (fun _ => false) st.files ["src"] [] cc = .ok (cc', ws) →
      (processBundle (fun _ => false) ["src"] [] (fun _ _ => true) "p1" st b).state.trace
        = st.trace ++ ws.map (fun w => Event.warnedMove w.1 w.2) ++
          [.wrote (["src"] ++ cc'.renderModuleFilePath) b.renderModule true,
           .wrote (["src"] ++ cc'.cssFilePath) b.cssRules true])) :=
  new_component_create_only_writes (fun _ => false) ["src"] [] (fun _ _ => true) "p1"
    _ _ rfl

/-! State lemmas for the import-rewriting phase: it never touches the
component or project collections, and its trace delta consists solely of
rewrite events against the tables it was handed. -/

@[simp]
theorem PassResult.state_ok (st : PassState) : (PassResult.ok st).state = st := rfl

@[simp]
theorem PassResult.state_aborted (e : SyncError) (st : PassState) :
    (PassResult.aborted e st).state = st := rfl

theorem state_step_compose (comps : List ComponentConfig) (projs : List ProjectConfig)
    (st : PassState) (r : PassResult) (f : PassState → PassResult)
    (hr : r.state.components = st.components ∧ r.state.projects = st.projects ∧
      ∃ Δ, r.state.trace = st.trace ++ Δ ∧ ∀ e ∈ Δ, ∃ q, e = Event.rewrote q comps projs)
    (hf : ∀ s, (f s).state.components = s.components ∧ (f s).state.projects = s.projects ∧
      ∃ Δ, (f s).state.trace = s.trace ++ Δ ∧ ∀ e ∈ Δ, ∃ q, e = Event.rewrote q comps projs) :
    (r.andThen f).state.components = st.components ∧
    (r.andThen f).state.projects = st.projects ∧
    ∃ Δ, (r.andThen f).state.trace = st.trace ++ Δ ∧
      ∀ e ∈ Δ, ∃ q, e = Event.rewrote q comps projs := by
  cases r with
  | aborted e s => simpa [PassResult.andThen, PassResult.state] using hr
  | ok s =>
    obtain ⟨hc, hp, Δ₁, ht, hΔ₁⟩ := hr
    obtain ⟨hc', hp', Δ₂, ht', hΔ₂⟩ := hf s
    simp only [PassResult.state] at hc hp ht
    refine ⟨?_, ?_, Δ₁ ++ Δ₂, ?_, ?_⟩
    · simpa [PassResult.andThen] using hc'.trans hc
    · simpa [PassResult.andThen] using hp'.trans hp
    · simp only [PassResult.andThen]
      rw [ht', ht, List.append_assoc]
    · intro e he
      rcases List.mem_append.mp he with he' | he'
      · exact hΔ₁ e he'
      · exact hΔ₂ e he'

theorem fixFileImportStatements_spec
    (ri : String → Path → List ComponentConfig → List ProjectConfig → String)
    (srcDir : Path) (comps : List ComponentConfig) (projs : List ProjectConfig)
    (st : PassState) (p : Path) :
    (fixFileImportStatements ri srcDir comps projs st p).state.components = st.components ∧
    (fixFileImportStatements ri srcDir comps projs st p).state.projects = st.projects ∧
    ∃ Δ, (fixFileImportStatements ri srcDir comps projs st p).state.trace = st.trace ++ Δ ∧
      ∀ e ∈ Δ, ∃ q, e = Event.rewrote q comps projs := by
  unfold fixFileImportStatements
  cases hg : getFile st.files (srcDir ++ p) with
  | none => exact ⟨rfl, rfl, [], by simp, by simp⟩
  | some content =>
    refine ⟨rfl, rfl, [Event.rewrote (srcDir ++ p) comps projs], by simp, ?_⟩
    intro e he
    simp only [List.mem_singleton] at he
    subst he
    exact ⟨srcDir ++ p, rfl⟩

theorem fixComponentImportStatements_spec (isLocal : Path → Bool)
    (ri : String → Path → List ComponentConfig → List ProjectConfig → String)
    (srcDir : Path) (comps : List ComponentConfig) (projs : List ProjectConfig)
    (st : PassState) (cc : ComponentConfig) :
    (fixComponentImportStatements isLocal ri srcDir comps projs st cc).state.components
        = st.components ∧
    (fixComponentImportStatements isLocal ri srcDir comps projs st cc).state.projects
        = st.projects ∧
    ∃ Δ, (fixComponentImportStatements isLocal ri srcDir comps projs st cc).state.trace
        = st.trace ++ Δ ∧
      ∀ e ∈ Δ, ∃ q, e = Event.rewrote q comps projs := by
  unfold fixComponentImportStatements
  refine state_step_compose comps projs st _ _
    (fixFileImportStatements_spec ri srcDir comps projs st cc.renderModuleFilePath) ?_
  intro s
  refine state_step_compose comps projs s _ _
    (fixFileImportStatements_spec ri srcDir comps projs s cc.cssFilePath) ?_
  intro s'
  cases hL : isLocal cc.importSpec.modulePath with
  | false => exact ⟨by simp [hL], by simp [hL], [], by simp [hL], by simp⟩
  | true =>
    simp only [hL, if_true]
    exact fixFileImportStatements_spec ri srcDir comps projs s' cc.importSpec.modulePath

theorem fixImportsLoop_spec (isLocal : Path → Bool)
    (ri : String → Path → List ComponentConfig → List ProjectConfig → String)
    (srcDir : Path) (comps : List ComponentConfig) (projs : List ProjectConfig)
    (cs : List ComponentConfig) (st : PassState) :
    (fixImportsLoop isLocal ri srcDir comps projs st cs).state.components = st.components ∧
    (fixImportsLoop isLocal ri srcDir comps projs st cs).state.projects = st.projects ∧
    ∃ Δ, (fixImportsLoop isLocal ri srcDir comps projs st cs).state.trace = st.trace ++ Δ ∧
      ∀ e ∈ Δ, ∃ q, e = Event.rewrote q comps projs := by
  induction cs generalizing st with
  | nil => exact ⟨rfl, rfl, [], by simp [fixImportsLoop], by simp⟩
  | cons c cs ih =>
    simp only [fixImportsLoop]
    exact state_step_compose comps projs st _ _
      (fixComponentImportStatements_spec isLocal ri srcDir comps projs st c)
      (fun s => ih s)

theorem fixAllImportStatements_spec (isLocal : Path → Bool)
    (ri : String → Path → List ComponentConfig → List ProjectConfig → String)
    (srcDir : Path) (st : PassState) :
    (fixAllImportStatements isLocal ri srcDir st).state.components = st.components ∧
    (fixAllImportStatements isLocal ri srcDir st).state.projects = st.projects ∧
    ∃ Δ, (fixAllImportStatements isLocal ri srcDir st).state.trace = st.trace ++ Δ ∧
      ∀ e ∈ Δ, ∃ q, e = Event.rewrote q st.components st.projects :=
  fixImportsLoop_spec isLocal ri srcDir st.components st.projects st.components st

/-- C10: the standalone fix-imports operation reconciles and persists
component entries only: the tracked project collection is returned
unchanged (its `contextFilePath` and `fontsFilePath` are never
mutated — `fixProjectFilePaths` is not on this code path), and no
persist event covering the project collection is ever emitted. -/
theorem fixImports_projects_untouched (isLocal : Path → Bool)
    (ri : String → Path → List ComponentConfig → List ProjectConfig → String)
    (srcDir : Path) (idx : FileIndex) (st : PassState) :
    (fixImportsModel isLocal ri srcDir idx st).state.projects = st.projects ∧
    ((∀ (c : List ComponentConfig) (ps : List ProjectConfig),
        Event.persisted c (some ps) ∉ st.trace) →
      ∀ (c : List ComponentConfig) (ps : List ProjectConfig),
        Event.persisted c (some ps) ∉ (fixImportsModel isLocal ri srcDir idx st).state.trace) := by
  unfold fixImportsModel
  cases hloop : fixComponentsLoop isLocal st.files srcDir idx st.components with
  | error e => exact ⟨rfl, fun h c ps => h c ps⟩
  | ok res =>
    obtain ⟨cs', ws⟩ := res
    obtain ⟨_, hp, Δ, ht, hΔ⟩ := fixAllImportStatements_spec isLocal ri srcDir
      { st with
        components := cs'
        trace := st.trace ++ ws.map (fun w => Event.warnedMove w.1 w.2) ++
          [.persisted cs' none] }
    constructor
    · exact hp
    · intro h c ps hmem
      rw [ht] at hmem
      simp only [List.append_assoc, List.mem_append] at hmem
      rcases hmem with hmem | hmem | hmem | hmem
      · exact h c ps hmem
      · rcases List.mem_map.mp hmem with ⟨w, _, hw⟩
        exact absurd hw.symm (by simp)
      · simp only [List.mem_singleton, Event.persisted.injEq] at hmem
        exact absurd hmem.2 (by simp)
      · rcases hΔ _ hmem with ⟨q, hq⟩
        exact absurd hq (by simp)

theorem fixImports_projects_untouched_witness :
    (let st : PassState :=
      { files := [(["src", "R.tsx"], "r0"), (["src", "C.css"], "c0")]
        components :=
          [{ id := "c1", name := "B", type := "managed", projectId := "p1"
             renderModuleFilePath := ["R.tsx"]
             importSpec := { modulePath := ["ext"] }
             cssFilePath := ["C.css"] }]
        projects :=
          [{ projectId := "p1", contextFilePath := ["ctx.ts"]
             fontsFilePath := ["f.ts"], contextTypeName := "T" }]
        trace := [] }
    (fixImportsModel (fun _ => false) (fun c _ _ _ => c) ["src"] [] st).state.projects
        = st.projects ∧
    ∀ (c : List ComponentConfig) (ps : List ProjectConfig),
      Event.persisted c (some ps)
        ∉ (fixImportsModel (fun _ => false) (fun c _ _ _ => c) ["src"] [] st).state.trace) :=
  ⟨(fixImports_projects_untouched (fun _ => false) (fun c _ _ _ => c) ["src"] [] _).1,
   (fixImports_projects_untouched (fun _ => false) (fun c _ _ _ => c) ["src"] [] _).2
     (by simp)⟩

/-! Trace lemmas for the writing/reconciling phase: its trace delta
consists solely of write events and move warnings. -/

theorem ok_trace_compose (P : Event → Prop) (st : PassState) (r : PassResult)
    (f : PassState → PassResult) (st' : PassState)
    (h : r.andThen f = .ok st')
    (hr : ∀ s, r = .ok s → ∃ Δ, s.trace = st.trace ++ Δ ∧ ∀ e ∈ Δ, P e)
    (hf : ∀ s, r = .ok s → f s = .ok st' →
      ∃ Δ, st'.trace = s.trace ++ Δ ∧ ∀ e ∈ Δ, P e) :
    ∃ Δ, st'.trace = st.trace ++ Δ ∧ ∀ e ∈ Δ, P e := by
  cases r with
  | aborted e s => exact absurd h (by simp [PassResult.andThen])
  | ok s =>
    simp only [PassResult.andThen] at h
    obtain ⟨Δ₁, ht₁, hΔ₁⟩ := hr s rfl
    obtain ⟨Δ₂, ht₂, hΔ₂⟩ := hf s rfl h
    refine ⟨Δ₁ ++ Δ₂, by rw [ht₂, ht₁, List.append_assoc], ?_⟩
    intro e he
    rcases List.mem_append.mp he with he' | he'
    · exact hΔ₁ e he'
    · exact hΔ₂ e he'

theorem processBundle_trace (isLocal : Path → Bool) (srcDir : Path) (idx : FileIndex)
    (shouldSync : String → String → Bool) (pid : String) (st : PassState)
    (b : ComponentBundle) (st' : PassState)
    (h : processBundle isLocal srcDir idx shouldSync pid st b = .ok st') :
    ∃ Δ, st'.trace = st.trace ++ Δ ∧ ∀ e ∈ Δ, e.isWrite = true ∨ e.isWarn = true := by
  unfold processBundle at h
  split at h
  · simp only [PassResult.ok.injEq] at h
    subst h
    exact ⟨[], by simp, by simp⟩
  · split at h
    · simp only [PassResult.ok.injEq] at h
      subst h
      refine ⟨_, rfl, ?_⟩
      intro e he
      simp only [List.mem_cons, List.not_mem_nil, or_false] at he
      rcases he with rfl | rfl | rfl <;> simp [Event.isWrite]
    · split at h
      · exact absurd h (by simp)
      · simp only [PassResult.ok.injEq] at h
        subst h
        refine ⟨_, by rw [List.append_assoc], ?_⟩
        intro e he
        rcases List.mem_append.mp he with he' | he'
        · rcases List.mem_map.mp he' with ⟨w, _, hw⟩
          subst hw
          simp [Event.isWarn]
        · simp only [List.mem_cons, List.not_mem_nil, or_false] at he'
          rcases he' with rfl | rfl <;> simp [Event.isWrite]

theorem processProjectFiles_trace (srcDir : Path) (idx : FileIndex) (st : PassState)
    (pc : ProjectBundleConfig) (st' : PassState)
    (h : processProjectFiles srcDir idx st pc = .ok st') :
    ∃ Δ, st'.trace = st.trace ++ Δ ∧ ∀ e ∈ Δ, e.isWrite = true ∨ e.isWarn = true := by
  unfold processProjectFiles at h
  split at h
  · simp only [PassResult.ok.injEq] at h
    subst h
    refine ⟨_, rfl, ?_⟩
    intro e he
    simp only [List.mem_cons, List.not_mem_nil, or_false] at he
    rcases he with rfl | rfl <;> simp [Event.isWrite]
  · split at h
    · exact absurd h (by simp)
    · simp only [PassResult.ok.injEq] at h
      subst h
      refine ⟨_, by rw [List.append_assoc], ?_⟩
      intro e he
      rcases List.mem_append.mp he with he' | he'
      · rcases List.mem_map.mp he' with ⟨w, _, hw⟩
        subst hw
        simp [Event.isWarn]
      · simp only [List.mem_cons, List.not_mem_nil, or_false] at he'
        rcases he' with rfl | rfl <;> simp [Event.isWrite]

theorem processBundles_trace (isLocal : Path → Bool) (srcDir : Path) (idx : FileIndex)
    (shouldSync : String → String → Bool) (pid : String) (bs : List ComponentBundle) :
    ∀ st st', processBundles isLocal srcDir idx shouldSync pid st bs = .ok st' →
      ∃ Δ, st'.trace = st.trace ++ Δ ∧ ∀ e ∈ Δ, e.isWrite = true ∨ e.isWarn = true := by
  induction bs with
  | nil =>
    intro st st' h
    simp only [processBundles, PassResult.ok.injEq] at h
    subst h
    exact ⟨[], by simp, by simp⟩
  | cons b bs ih =>
    intro st st' h
    simp only [processBundles] at h
    exact ok_trace_compose _ st _ _ st' h
      (fun s hs => processBundle_trace isLocal srcDir idx shouldSync pid st b s hs)
      (fun s _ hf => ih s st' hf)

theorem processProject_trace (isLocal : Path → Bool) (srcDir : Path) (idx : FileIndex)
    (shouldSync : String → String → Bool) (st : PassState) (pr : String × ProjectBundle)
    (st' : PassState)
    (h : processProject isLocal srcDir idx shouldSync st pr = .ok st') :
    ∃ Δ, st'.trace = st.trace ++ Δ ∧ ∀ e ∈ Δ, e.isWrite = true ∨ e.isWarn = true := by
  unfold processProject at h
  exact ok_trace_compose _ st _ _ st' h
    (fun s hs => processBundles_trace isLocal srcDir idx shouldSync pr.1 pr.2.results st s hs)
    (fun s _ hf => processProjectFiles_trace srcDir idx s pr.2.projectConfig st' hf)

theorem processAllProjects_trace (isLocal : Path → Bool) (srcDir : Path)
    (idx : FileIndex) (shouldSync : String → String → Bool)
    (prs : List (String × ProjectBundle)) :
    ∀ st st', processAllProjects isLocal srcDir idx shouldSync st prs = .ok st' →
      ∃ Δ, st'.trace = st.trace ++ Δ ∧ ∀ e ∈ Δ, e.isWrite = true ∨ e.isWarn = true := by
  induction prs with
  | nil =>
    intro st st' h
    simp only [processAllProjects, PassResult.ok.injEq] at h
    subst h
    exact ⟨[], by simp, by simp⟩
  | cons pr prs ih =>
    intro st st' h
    simp only [processAllProjects] at h
    exact ok_trace_compose _ st _ _ st' h
      (fun s hs => processProject_trace isLocal srcDir idx shouldSync st pr s hs)
      (fun s _ hf => ih s st' hf)

/-- C4: in every successful synchronization pass, import rewriting
begins only after every bundle has been processed: the trace splits
into a first segment of writes and move warnings only, then the
persist of both collections, then a segment of rewrite events only —
and every rewrite event carries exactly the final, reconciled
component and project tables of the pass. -/
theorem sync_rewrite_ordering (isLocal : Path → Bool)
    (ri : String → Path → List ComponentConfig → List ProjectConfig → String)
    (srcDir : Path) (idx : FileIndex) (optsComponents : List String)
    (includeNew : Bool) (st : PassState) (pbs : List (String × ProjectBundle))
    (st' : PassState)
    (h0 : st.trace = [])
    (hrun : syncProjectsModel isLocal ri srcDir idx optsComponents includeNew st pbs
      = .ok st') :
    ∃ t₁ t₂, st'.trace = t₁ ++ Event.persisted st'.components (some st'.projects) :: t₂ ∧
      (∀ e ∈ t₁, e.isWrite = true ∨ e.isWarn = true) ∧
      (∀ e ∈ t₂, ∃ q, e = Event.rewrote q st'.components st'.projects) := by
  unfold syncProjectsModel at hrun
  cases hpap : processAllProjects isLocal srcDir idx
      (shouldSyncComponents optsComponents (st.components.map (fun c => c.id)) includeNew)
      st pbs with
  | aborted e s =>
    rw [hpap] at hrun
    exact absurd hrun (by simp [PassResult.andThen])
  | ok st₁ =>
    rw [hpap] at hrun
    simp only [PassResult.andThen] at hrun
    obtain ⟨Δ₁, ht₁, hΔ₁⟩ := processAllProjects_trace isLocal srcDir idx _ pbs st st₁ hpap
    obtain ⟨hc, hp, Δ₂, ht₂, hΔ₂⟩ := fixAllImportStatements_spec isLocal ri srcDir
      { st₁ with
        trace := st₁.trace ++ [.persisted st₁.components (some st₁.projects)] }
    rw [hrun] at hc hp ht₂
    simp only [PassResult.state_ok] at hc hp ht₂
    refine ⟨Δ₁, Δ₂, ?_, ?_, ?_⟩
    · rw [ht₂]
      simp only [hc, hp]
      rw [ht₁, h0, List.nil_append, List.append_assoc, List.singleton_append]
    · exact hΔ₁
    · intro e he
      rcases hΔ₂ e he with ⟨q, hq⟩
      exact ⟨q, by rw [hq, hc, hp]⟩

theorem sync_rewrite_ordering_witness :
    (let cc : ComponentConfig :=
      { id := "c1", name := "B", type := "managed", projectId := "p1"
        renderModuleFilePath := ["R.tsx"], importSpec := { modulePath := ["S.tsx"] }
        cssFilePath := ["S.css"] }
    let pj : ProjectConfig :=
      { projectId := "p1", contextFilePath := ["ctx.ts"], fontsFilePath := ["f.ts"]
        contextTypeName := "T" }
    let st' : PassState :=
      { files := [(["src", "R.tsx"], "R"), (["src", "S.css"], "C"),
          (["src", "S.tsx"], "S"), (["src", "ctx.ts"], "CM"), (["src", "f.ts"], "FM")]
        components := [cc]
        projects := [pj]
        trace := [.wrote ["src", "R.tsx"] "R" false, .wrote ["src", "S.css"] "C" false,
          .wrote ["src", "S.tsx"] "S" false, .wrote ["src", "ctx.ts"] "CM" false,
          .wrote ["src", "f.ts"] "FM" false, .persisted [cc] (some [pj]),
          .rewrote ["src", "R.tsx"] [cc] [pj], .rewrote ["src", "S.css"] [cc] [pj]] }
    ∃ t₁ t₂, st'.trace = t₁ ++ Event.persisted st'.components (some st'.projects) :: t₂ ∧
      (∀ e ∈ t₁, e.isWrite = true ∨ e.isWarn = true) ∧
      (∀ e ∈ t₂, ∃ q, e = Event.rewrote q st'.components st'.projects)) :=
  sync_rewrite_ordering (fun _ => false) (fun c _ _ _ => c) ["src"] [] [] false
    { files := [], components := [], projects := [], trace := [] }
    [("p1",
      { results :=
          [{ renderModule := "R", skeletonModule := "S", cssRules := "C"
             renderModuleFileName := ["R.tsx"], skeletonModuleFileName := ["S.tsx"]
             cssFileName := ["S.css"], componentName := "B", id := "c1" }]
        projectConfig :=
          { projectId := "p1", contextFileName := ["ctx.ts"], fontsFileName := ["f.ts"]
            contextModule := "CM", fontsModule := "FM", contextTypeName := "T" } })]
    _ rfl rfl

theorem processBundles_append (isLocal : Path → Bool) (srcDir : Path) (idx : FileIndex)
    (shouldSync : String → String → Bool) (pid : String)
    (pre bs : List ComponentBundle) :
    ∀ st, processBundles isLocal srcDir idx shouldSync pid st (pre ++ bs)
      = (processBundles isLocal srcDir idx shouldSync pid st pre).andThen
          (fun s => processBundles isLocal srcDir idx shouldSync pid s bs) := by
  induction pre with
  | nil =>
    intro st
    simp [processBundles, PassResult.andThen]
  | cons b pre ih =>
    intro st
    simp only [List.cons_append, processBundles]
    cases processBundle isLocal srcDir idx shouldSync pid st b with
    | ok s => simp [PassResult.andThen, ih]
    | aborted e s => simp [PassResult.andThen]

/-- C1: for every reconciliation call where the file does not exist at
`srcDir/expectedPath` and two or more indexed files share its bare
name, `findSrcDirPath` reports an ambiguity naming every candidate and
never returns a guessed path; embedded in a sync pass, the ambiguity
aborts the whole pass (the modelled `process.exit(1)`) with the state
frozen at the moment of the error, so no file is overwritten
afterwards. -/
theorem findSrcDirPath_ambiguity_fatal (isLocal : Path → Bool)
    (ri : String → Path → List ComponentConfig → List ProjectConfig → String)
    (srcDir expected : Path) (idx : FileIndex) (optsComponents : List String)
    (includeNew : Bool) (st st₁ : PassState) (pre post : List ComponentBundle)
    (b : ComponentBundle) (pid : String) (pc : ProjectBundleConfig)
    (cc : ComponentConfig) (cs : List Path)
    (hne : existsSync st₁.files (srcDir ++ expected) = false)
    (hlk : lookupIndex idx (baseName expected) = some cs)
    (h2 : 2 ≤ cs.length) :
    findSrcDirPath st₁.files srcDir expected idx
      = .ambiguous expected (baseName expected) cs ∧
    (processBundles isLocal srcDir idx
        (shouldSyncComponents optsComponents (st.components.map (fun c => c.id)) includeNew)
        pid st pre = .ok st₁ →
      shouldSyncComponents optsComponents (st.components.map (fun c => c.id)) includeNew
        b.id b.componentName = true →
      st₁.components.find? (fun c => c.id = b.id) = some cc →
      cc.renderModuleFilePath = expected →
      syncProjectsModel isLocal ri srcDir idx optsComponents includeNew st
        [(pid, { results := pre ++ b :: post, projectConfig := pc })]
        = .aborted (.ambiguousPath expected (baseName expected) cs) st₁) := by
  have hamb : findSrcDirPath st₁.files srcDir expected idx
      = .ambiguous expected (baseName expected) cs := by
    rcases cs with _ | ⟨c₁, _ | ⟨c₂, rest⟩⟩
    · exact absurd h2 (by simp)
    · exact absurd h2 (by simp)
    · simp [findSrcDirPath, hne, hlk]
  refine ⟨hamb, ?_⟩
  intro hpre hsync hfind hrender
  have herr : fixComponentPaths isLocal st₁.files srcDir idx cc
      = .error (.ambiguousPath expected (baseName expected) cs) := by
    have h1 : fixOnePath st₁.files srcDir idx cc.renderModuleFilePath
        = .error (.ambiguousPath expected (baseName expected) cs) := by
      rw [hrender]
      simp [fixOnePath, hamb]
    unfold fixComponentPaths
    rw [h1]
  have hb : processBundle isLocal srcDir idx
      (shouldSyncComponents optsComponents (st.components.map (fun c => c.id)) includeNew)
      pid st₁ b
      = .aborted (.ambiguousPath expected (baseName expected) cs) st₁ :=
    processBundle_existing_aborts isLocal srcDir idx _ pid st₁ b cc _ hsync hfind herr
  unfold syncProjectsModel
  simp only [processAllProjects, processProject]
  rw [processBundles_append isLocal srcDir idx _ pid pre (b :: post) st, hpre]
  simp only [PassResult.andThen, processBundles]
  rw [hb]

theorem findSrcDirPath_ambiguity_fatal_witness :
    (let cc : ComponentConfig :=
      { id := "c1", name := "B", type := "managed", projectId := "p1"
        renderModuleFilePath := ["old", "Card.tsx"]
        importSpec := { modulePath := ["x"] }
        cssFilePath := ["Card.css"] }
    let st : PassState := { files := [], components := [cc], projects := [], trace := [] }
    let idx : FileIndex :=
      [("Card.tsx", [["src", "a", "Card.tsx"], ["src", "b", "Card.tsx"]])]
    findSrcDirPath st.files ["src"] ["old", "Card.tsx"] idx
      = .ambiguous ["old", "Card.tsx"] (baseName ["old", "Card.tsx"])
          [["src", "a", "Card.tsx"], ["src", "b", "Card.tsx"]] ∧
    syncProjectsModel (fun _ => false) (fun c _ _ _ => c) ["src"] idx [] false st
        [("p1",
          { results :=
              [{ renderModule := "R", skeletonModule := "S", cssRules := "C"
                 renderModuleFileName := ["R.tsx"], skeletonModuleFileName := ["S.tsx"]
                 cssFileName := ["S.css"], componentName := "B", id := "c1" }]
            projectConfig :=
              { projectId := "p1", contextFileName := ["ctx.ts"], fontsFileName := ["f.ts"]
                contextModule := "CM", fontsModule := "FM", contextTypeName := "T" } })]
      = .aborted
          (.ambiguousPath ["old", "Card.tsx"] (baseName ["old", "Card.tsx"])
            [["src", "a", "Card.tsx"], ["src", "b", "Card.tsx"]]) st) :=
  by
  have H := findSrcDirPath_ambiguity_fatal (fun _ => false) (fun c _ _ _ => c) ["src"]
    ["old", "Card.tsx"]
    [("Card.tsx", [["src", "a", "Card.tsx"], ["src", "b", "Card.tsx"]])] [] false
    { files := []
      components :=
        [{ id := "c1", name := "B", type := "managed", projectId := "p1"
           renderModuleFilePath := ["old", "Card.tsx"]
           importSpec := { modulePath := ["x"] }
           cssFilePath := ["Card.css"] }]
      projects := [], trace := [] }
    { files := []
      components :=
        [{ id := "c1", name := "B", type := "managed", projectId := "p1"
           renderModuleFilePath := ["old", "Card.tsx"]
           importSpec := { modulePath := ["x"] }
           cssFilePath := ["Card.css"] }]
      projects := [], trace := [] }
    [] []
    { renderModule := "R", skeletonModule := "S", cssRules := "C"
      renderModuleFileName := ["R.tsx"], skeletonModuleFileName := ["S.tsx"]
      cssFileName := ["S.css"], componentName := "B", id := "c1" }
    "p1"
    { projectId := "p1", contextFileName := ["ctx.ts"], fontsFileName := ["f.ts"]
      contextModule := "CM", fontsModule := "FM", contextTypeName := "T" }
    { id := "c1", name := "B", type := "managed", projectId := "p1"
      renderModuleFilePath := ["old", "Card.tsx"]
      importSpec := { modulePath := ["x"] }
      cssFilePath := ["Card.css"] }
    [["src", "a", "Card.tsx"], ["src", "b", "Card.tsx"]]
    (by decide) (by decide) (by decide)
  exact ⟨H.1, H.2 rfl (by decide) rfl rfl⟩

end Plasmic
